import Mathlib

/-!
Verification of the cosign `sign` command (cmd/sign.go) against its
natural-language specification.

The Go source is shallowly embedded: every collaborator that lives outside
the file under review (reference parsing, registry fetch, file reads,
passphrase acquisition, key loading, payload construction, the uploader
registry) is an explicit field of an `Env` record, and the orchestration
function `sign` is a direct transcription of the Go control flow.  Each
collaborator invocation and each output the command produces is recorded,
in order, in a trace of `Event`s, so that claims of the form "step X is
never performed" or "step X happens before step Y" become statements about
the trace.  Byte strings are `List Nat` (Go `[]byte`), Go `error` values
are the `String` payload of `Except`/`Outcome.err`, and a Go panic is the
distinguished outcome `Outcome.panicked`.
-/

/-- Go `[]byte`: a list of byte values. -/
abbrev Bytes := List Nat

/-- Go `map[string]string`, viewed extensionally as a lookup function
(`none` = key absent).  Used for the `-a` annotations. -/
abbrev AnnMap := String → Option String

/-- Model of `name.Reference` (go-containerregistry): the only part of a
parsed reference the signing flow uses is `ref.Context()`, the repository,
modelled as its string form. -/
structure Ref where
  repo : String
deriving DecidableEq

/-- Model of the `v1.Descriptor` returned by `remote.Get`:
`get.Descriptor.Digest.String()` is the `digest` field; the other fields
are carried for fidelity but unused by the flow. -/
structure Descriptor where
  digest : String
  mediaType : String
  size : Int
deriving DecidableEq

/-- Model of `name.Tag` as built by `ref.Context().Tag(munged)`: the
repository it is scoped to plus the tag component. -/
structure Tag where
  repo : String
  tag : String
deriving DecidableEq

/-- `Tag.String()` in go-containerregistry renders `repository:tag`. -/
def Tag.asString (t : Tag) : String :=
  t.repo ++ ":" ++ t.tag

/-- One observable step of the sign operation: a collaborator invocation or
an output.  Events are appended to the trace in the order the Go code
performs them. -/
inductive Event where
  | evParse (imageRef : String)
  | evGet (repo : String)
  | evStderr (msg : String)
  | evReadFile (path : String)
  | evBuildPayload (digest : String)
  | evGetPass
  | evLoadKey (path : String)
  | evSign (key payload : Bytes)
  | evStdout (msg : String)
  | evUpload (signature payload : Bytes) (dst : Tag)
deriving DecidableEq

/-- Final outcome of one invocation: `ok` (Go `return nil`), `err e`
(Go `return err` with error text `e`), `usage` (Go `flag.ErrHelp`), or
`panicked m` (a Go runtime panic with message `m`). -/
inductive Outcome where
  | ok
  | err (e : String)
  | usage
  | panicked (msg : String)
deriving DecidableEq

/-- The uploader selected from `pkg.Uploaders`:
`Upload(signature, payload, dstTag)`. -/
abbrev UploaderFn := Bytes → Bytes → Tag → Except String Unit

/-- The external collaborators of cmd/sign.go, exactly the calls the file
makes into other packages:
`name.ParseReference`, `remote.Get`, `ioutil.ReadFile`, `pkg.Payload`,
`getPass`, `pkg.LoadPrivateKey`, and the `pkg.Uploaders` registry.
Their bodies live outside the file under review, so they are arbitrary
injected functions here. -/
structure Env where
  parseReference : String → Except String Ref
  remoteGet : Ref → Except String Descriptor
  readFile : String → Except String Bytes
  payload : Descriptor → AnnMap → Except String Bytes
  getPass : Bool → Except String Bytes
  loadPrivateKey : String → Bytes → Except String Bytes
  uploaders : String → Option UploaderFn

/-- Model of Go `crypto/ed25519.Sign`'s output bytes for a key of the
supported size.  The claims under verification concern the control flow
around signing, never the curve arithmetic, so the 64-byte signature value
is a stand-in deterministic pure function of (key, message). -/
def ed25519SignBytes (pk msg : Bytes) : Bytes :=
  ((pk ++ msg) ++ List.replicate 64 0).take 64

/-- Model of Go `crypto/ed25519.Sign`: per its documentation it panics
unless `len(privateKey) == PrivateKeySize` (64); `none` is that panic.
The key is used whole — never truncated or padded to 64 bytes. -/
def ed25519Sign (pk msg : Bytes) : Option Bytes :=
  if pk.length = 64 then some (ed25519SignBytes pk msg) else none

/-- The base64 standard alphabet used by `base64.StdEncoding`. -/
def base64Alphabet : List Char :=
  "ABCDEFGHIJKLMNOPQRSTUVWXYZabcdefghijklmnopqrstuvwxyz0123456789+/".data

/-- The base64 digit for a 6-bit value. -/
def base64Char (n : Nat) : Char :=
  base64Alphabet.getD n '?'

/-- Three-bytes-to-four-chars core of `base64.StdEncoding.EncodeToString`,
with `=` padding for a 1- or 2-byte tail. -/
def base64Chunks : Bytes → List Char
  | [] => []
  | [a] => [base64Char (a / 4), base64Char (a % 4 * 16), '=', '=']
  | [a, b] => [base64Char (a / 4), base64Char (a % 4 * 16 + b / 16),
               base64Char (b % 16 * 4), '=']
  | a :: b :: c :: rest =>
      base64Char (a / 4) :: base64Char (a % 4 * 16 + b / 16) ::
      base64Char (b % 16 * 4 + c / 64) :: base64Char (c % 64) ::
      base64Chunks rest

/-- Model of `base64.StdEncoding.EncodeToString`. -/
def base64Encode (bs : Bytes) : String :=
  ⟨base64Chunks bs⟩

/-- Model of Go `strings.ReplaceAll(s, old, new)` for the single-character
patterns used in cmd/sign.go: every occurrence of the character is
replaced, all other characters are untouched. -/
def replaceAllChar (s : String) (a b : Char) : String :=
  ⟨s.data.map (fun c => if c = a then b else c)⟩

/-- The events of the payload-acquisition step of `sign`: when a payload
path is given the code first prints "Using payload from: ..." to stderr and
then reads the file; otherwise it calls `pkg.Payload` on the resolved
descriptor. -/
def payloadEvents (payloadPath digest : String) : List Event :=
  if payloadPath ≠ "" then
    [Event.evStderr ("Using payload from: " ++ payloadPath),
     Event.evReadFile payloadPath]
  else
    [Event.evBuildPayload digest]

/-- The result of the payload-acquisition step of `sign`: the raw file
bytes when a payload path is given, else `pkg.Payload(descriptor,
annotations)`. -/
def payloadResult (env : Env) (payloadPath : String) (getd : Descriptor)
    (annotations : AnnMap) : Except String Bytes :=
  if payloadPath ≠ "" then env.readFile payloadPath
  else env.payload getd annotations

/-- Transcription of `func sign(ctx, keyPath, imageRef, upload,
payloadPath, annotations, uploader) error` from cmd/sign.go.  Returns the
ordered trace of collaborator invocations and outputs, together with the
outcome.  Every branch mirrors the Go code: each `if err != nil { return
err }` is a `match` on the collaborator's `Except` result, `ed25519.Sign`'s
length panic is `Outcome.panicked`, the `!upload` branch prints the base64
signature and returns nil, and the upload branch munges the digest
(`strings.ReplaceAll(digest, ":", "-")`), builds `dstTag` in the
repository of the parsed reference, prints the push message to stderr and
returns the uploader's result. -/
def sign (env : Env) (keyPath imageRef : String) (upload : Bool)
    (payloadPath : String) (annotations : AnnMap) (uploader : UploaderFn) :
    List Event × Outcome :=
  match env.parseReference imageRef with
  | .error e => ([Event.evParse imageRef], .err e)
  | .ok ref =>
    match env.remoteGet ref with
    | .error e => ([Event.evParse imageRef, Event.evGet ref.repo], .err e)
    | .ok getd =>
      match payloadResult env payloadPath getd annotations with
      | .error e =>
          ([Event.evParse imageRef, Event.evGet ref.repo] ++
             payloadEvents payloadPath getd.digest, .err e)
      | .ok payload =>
        match env.getPass false with
        | .error e =>
            ([Event.evParse imageRef, Event.evGet ref.repo] ++
               payloadEvents payloadPath getd.digest ++ [Event.evGetPass],
             .err e)
        | .ok pass =>
          match env.loadPrivateKey keyPath pass with
          | .error e =>
              ([Event.evParse imageRef, Event.evGet ref.repo] ++
                 payloadEvents payloadPath getd.digest ++
                 [Event.evGetPass, Event.evLoadKey keyPath], .err e)
          | .ok pk =>
            match ed25519Sign pk payload with
            | none =>
                ([Event.evParse imageRef, Event.evGet ref.repo] ++
                   payloadEvents payloadPath getd.digest ++
                   [Event.evGetPass, Event.evLoadKey keyPath],
                 .panicked "ed25519: bad private key length")
            | some signature =>
              if upload then
                ([Event.evParse imageRef, Event.evGet ref.repo] ++
                   payloadEvents payloadPath getd.digest ++
                   [Event.evGetPass, Event.evLoadKey keyPath,
                    Event.evSign pk payload,
                    Event.evStderr ("Pushing signature to: " ++
                      Tag.asString ⟨ref.repo, replaceAllChar getd.digest ':' '-'⟩),
                    Event.evUpload signature payload
                      ⟨ref.repo, replaceAllChar getd.digest ':' '-'⟩],
                 match uploader signature payload
                     ⟨ref.repo, replaceAllChar getd.digest ':' '-'⟩ with
                 | .ok _ => .ok
                 | .error e => .err e)
              else
                ([Event.evParse imageRef, Event.evGet ref.repo] ++
                   payloadEvents payloadPath getd.digest ++
                   [Event.evGetPass, Event.evLoadKey keyPath,
                    Event.evSign pk payload,
                    Event.evStdout (base64Encode signature)], .ok)

/-- Split a character list at the first occurrence of `sep`:
`some (before, after)` when `sep` occurs, `none` otherwise.  This is
Go `strings.SplitN(s, sep, 2)`: the split yields two parts exactly when
the separator occurs. -/
def splitFirstOn (sep : Char) : List Char → Option (List Char × List Char)
  | [] => none
  | c :: cs =>
    if c = sep then some ([], cs)
    else
      match splitFirstOn sep cs with
      | none => none
      | some (a, b) => some (c :: a, b)

/-- The annotations flag receiver of cmd/sign.go: a possibly-nil
`map[string]string`. -/
structure annotationsMap where
  annotations : Option AnnMap

/-- The bindings held by an `annotationsMap`, with the nil map reading as
empty (Go map reads on a nil map yield the zero value). -/
def annotationsMap.bindings (a : annotationsMap) : AnnMap :=
  fun k => match a.annotations with
  | none => none
  | some m => m k

/-- Go map assignment `m[k] = v`. -/
def annUpdate (m : AnnMap) (k v : String) : AnnMap :=
  fun q => if q = k then some v else m q

/-- Transcription of `(a *annotationsMap) Set(s string) error`: the nil map
is first initialized, then `strings.SplitN(s, "=", 2)` must yield two
parts (i.e. `s` must contain `=`) or the call errors with
"invalid flag: s, expected key=value" leaving the bindings untouched;
otherwise the key (text before the first `=`) is bound to the value (the
rest).  Returned pair: the receiver after the call and the Go error. -/
def annotationsMap.Set (a : annotationsMap) (s : String) :
    annotationsMap × Option String :=
  match splitFirstOn '=' s.data with
  | none => (⟨some a.bindings⟩,
             some ("invalid flag: " ++ s ++ ", expected key=value"))
  | some (k, v) => (⟨some (annUpdate a.bindings ⟨k⟩ ⟨v⟩)⟩, none)

/-- A sequence of `Set` calls as the flag parser performs them: stop at the
first failing call, returning the receiver reached and the error if any. -/
def annRunSets : annotationsMap → List String → annotationsMap × Option String
  | a, [] => (a, none)
  | a, s :: rest =>
    match annotationsMap.Set a s with
    | (a2, none) => annRunSets a2 rest
    | (a2, some e) => (a2, some e)

/-- The key/value pair a single flag argument denotes, split at the first
`=` (none when the argument has no `=`). -/
def parsePair (s : String) : Option (String × String) :=
  match splitFirstOn '=' s.data with
  | none => none
  | some (k, v) => some (⟨k⟩, ⟨v⟩)

/-- Left fold keeping, for the key `k`, the value of the last pair naming
it (the accumulator starts at `init`). -/
def lwwFold (k : String) : Option String → List (String × String) → Option String
  | init, [] => init
  | init, p :: rest => lwwFold k (if p.1 = k then some p.2 else init) rest

/-- The spec's "last write wins" reading of a sequence of annotation flag
arguments: the value bound to `k` is the value of the last argument whose
key is `k`, if any.  Stated from the spec's words, to be compared with the
accumulate-into-map behaviour of `annotationsMap.Set`. -/
def specLastWriteWins (args : List String) (k : String) : Option String :=
  lwwFold k none (args.filterMap parsePair)

/-- Transcription of the `Exec` closure built by `Sign()` in cmd/sign.go:
usage error (`flag.ErrHelp`) when the key path is empty or when there is
not exactly one positional argument; "unsupported format flag" when the
format selector is not a key of `pkg.Uploaders`; otherwise run `sign` with
the selected uploader.  Checks happen in exactly this order, before any
other work. -/
def SignExec (env : Env) (key : String) (upload : Bool)
    (payloadPath : String) (a : annotationsMap) (format : String)
    (args : List String) : List Event × Outcome :=
  if key = "" then ([], .usage)
  else
    match args with
    | [imageRef] =>
      match env.uploaders format with
      | none => ([], .err ("unsupported format flag: " ++ format))
      | some uploader =>
          sign env key imageRef upload payloadPath a.bindings uploader
    | _ => ([], .usage)

/-- Does the trace record an invocation of the uploader? -/
def Event.isUploadEv : Event → Bool
  | .evUpload _ _ _ => true
  | _ => false

/-- Does the trace record the signing step? -/
def Event.isSignEv : Event → Bool
  | .evSign _ _ => true
  | _ => false

/-- Does the trace record a stdout print? -/
def Event.isStdoutEv : Event → Bool
  | .evStdout _ => true
  | _ => false

/-- Does the trace record a `pkg.Payload` invocation? -/
def Event.isBuildEv : Event → Bool
  | .evBuildPayload _ => true
  | _ => false

/-- Is this the remote-descriptor fetch? -/
def Event.isGetEv : Event → Bool
  | .evGet _ => true
  | _ => false

def hasUpload (tr : List Event) : Bool := tr.any Event.isUploadEv
def hasSignEv (tr : List Event) : Bool := tr.any Event.isSignEv
def hasStdout (tr : List Event) : Bool := tr.any Event.isStdoutEv
def hasBuild (tr : List Event) : Bool := tr.any Event.isBuildEv

/-- The trace opens with parsing of the given reference, and its second
event — whenever there is one — is the remote descriptor fetch. -/
def startsParseGet (imageRef : String) (tr : List Event) : Bool :=
  match tr with
  | [] => false
  | e0 :: rest =>
    e0 = Event.evParse imageRef &&
    (match rest with
     | [] => true
     | e1 :: _ => e1.isGetEv)

/-- The digest string the invocation resolves its reference to, when both
parsing and the remote fetch succeed. -/
def resolvedDigest (env : Env) (imageRef : String) : Option String :=
  match env.parseReference imageRef with
  | .error _ => none
  | .ok r =>
    match env.remoteGet r with
    | .error _ => none
    | .ok g => some g.digest

/-- The error of the first failing pre-upload step of `sign`, in the order
the code runs them: reference parsing, descriptor fetch, payload read or
build, passphrase acquisition, key loading.  `none` when they all
succeed. -/
def firstFailure (env : Env) (keyPath imageRef payloadPath : String)
    (annotations : AnnMap) : Option String :=
  match env.parseReference imageRef with
  | .error e => some e
  | .ok r =>
    match env.remoteGet r with
    | .error e => some e
    | .ok g =>
      match payloadResult env payloadPath g annotations with
      | .error e => some e
      | .ok _ =>
        match env.getPass false with
        | .error e => some e
        | .ok pass =>
          match env.loadPrivateKey keyPath pass with
          | .error e => some e
          | .ok _ => none

/-- The private key the pipeline loads, when every step up to and
including key loading succeeds. -/
def loadedKey (env : Env) (keyPath imageRef payloadPath : String)
    (annotations : AnnMap) : Option Bytes :=
  match env.parseReference imageRef with
  | .error _ => none
  | .ok r =>
    match env.remoteGet r with
    | .error _ => none
    | .ok g =>
      match payloadResult env payloadPath g annotations with
      | .error _ => none
      | .ok _ =>
        match env.getPass false with
        | .error _ => none
        | .ok pass =>
          match env.loadPrivateKey keyPath pass with
          | .error _ => none
          | .ok pk => some pk

/-- Characters allowed in the algorithm component of a digest in
`algorithm:hex` form (lowercase letters and digits — e.g. `sha256`). -/
def isAlgChar (c : Char) : Bool := c.isLower || c.isDigit

/-- Characters of a lowercase hex encoding. -/
def isHexChar (c : Char) : Bool := c.isDigit || ('a' ≤ c && c ≤ 'f')

/-- A digest string is in `algorithm:hex` form: a nonempty algorithm of
lowercase letters and digits, the `:` separator, and a hex value. -/
def digestWellFormed (d : String) : Bool :=
  match splitFirstOn ':' d.data with
  | none => false
  | some (a, h) => !a.isEmpty && a.all isAlgChar && h.all isHexChar

/-- The empty annotations mapping. -/
def annEmpty : AnnMap := fun _ => none

/-- A concrete resolved descriptor used by the witness environments. -/
def okDesc : Descriptor :=
  ⟨"sha256:abc123", "application/vnd.docker.distribution.manifest.v2+json", 123⟩

/-- An uploader that always succeeds, for the witness environments. -/
def uplOK : UploaderFn := fun _ _ _ => .ok ()

/-- A fully succeeding environment: every reference parses to a repository
named by the reference string itself, every fetch resolves to `okDesc`,
and the key loader produces a 64-byte key. -/
def envOK : Env where
  parseReference := fun s => .ok ⟨s⟩
  remoteGet := fun _ => .ok okDesc
  readFile := fun p =>
    if p = "payload.json" then .ok [10, 20, 30]
    else .error ("open " ++ p ++ ": no such file or directory")
  payload := fun g _ => .ok (g.digest.data.map Char.toNat)
  getPass := fun _ => .ok [112]
  loadPrivateKey := fun _ _ => .ok (List.replicate 64 7)
  uploaders := fun f =>
    if f = "compat" || f = "index" then some uplOK else none

/-- `envOK` with a key loader returning a 3-byte key (unsupported size). -/
def envShortKey : Env :=
  { envOK with loadPrivateKey := fun _ _ => .ok [1, 2, 3] }

/-- `envOK` with a failing passphrase prompt. -/
def envFailPass : Env :=
  { envOK with getPass := fun _ => .error "reading password: EOF" }

/-- `envOK` with a failing reference parser. -/
def envFailParse : Env :=
  { envOK with parseReference := fun _ => .error "could not parse reference" }

/-- `envOK` with a failing remote fetch. -/
def envFailGet : Env :=
  { envOK with remoteGet := fun _ => .error "GET manifest: unauthorized" }

/-- The key bytes `envOK` loads. -/
def wKeyBytes : Bytes := List.replicate 64 7

/-- The payload bytes `envOK.payload` builds for `okDesc`. -/
def wPayloadBytes : Bytes := "sha256:abc123".data.map Char.toNat

/-- The signature of `wPayloadBytes` under `wKeyBytes`. -/
def wSigBytes : Bytes := ed25519SignBytes wKeyBytes wPayloadBytes


lemma splitFirstOn_of_mem {sep : Char} {l : List Char} (h : sep ∈ l) :
    ∃ p, splitFirstOn sep l = some p := by
  induction l with
  | nil => simp at h
  | cons c cs ih =>
    by_cases hc : c = sep
    · subst hc
      exact ⟨([], cs), by simp [splitFirstOn]⟩
    · have hm : sep ∈ cs := by
        rcases List.mem_cons.mp h with h1 | h2
        · exact absurd h1.symm hc
        · exact h2
      obtain ⟨p, hp⟩ := ih hm
      exact ⟨(c :: p.1, p.2), by simp [splitFirstOn, if_neg hc, hp]⟩

lemma splitFirstOn_of_not_mem {sep : Char} {l : List Char} (h : sep ∉ l) :
    splitFirstOn sep l = none := by
  induction l with
  | nil => simp [splitFirstOn]
  | cons c cs ih =>
    have hc : c ≠ sep := fun hh => h (List.mem_cons.mpr (Or.inl hh.symm))
    have hcs : sep ∉ cs := fun hm => h (List.mem_cons.mpr (Or.inr hm))
    simp [splitFirstOn, if_neg hc, ih hcs]

lemma splitFirstOn_eq {sep : Char} {l : List Char} :
    ∀ {a b : List Char}, splitFirstOn sep l = some (a, b) →
      l = a ++ sep :: b ∧ sep ∉ a := by
  induction l with
  | nil => intro a b h; simp [splitFirstOn] at h
  | cons c cs ih =>
    intro a b h
    by_cases hc : c = sep
    · subst hc
      simp [splitFirstOn] at h
      obtain ⟨rfl, rfl⟩ := h
      exact ⟨rfl, by simp⟩
    · simp only [splitFirstOn, if_neg hc] at h
      cases hs : splitFirstOn sep cs with
      | none => rw [hs] at h; simp at h
      | some p =>
        obtain ⟨p1, p2⟩ := p
        rw [hs] at h
        simp only [Option.some.injEq, Prod.mk.injEq] at h
        obtain ⟨h1, h2⟩ := h
        obtain ⟨ha, hna⟩ := ih hs
        subst h1; subst h2
        constructor
        · simp [ha]
        · intro hm
          rcases List.mem_cons.mp hm with hm1 | hm2
          · exact hc hm1.symm
          · exact hna hm2

lemma map_colon_dash_roundtrip : ∀ l : List Char, '-' ∉ l →
    (l.map (fun c => if c = ':' then '-' else c)).map
      (fun c => if c = '-' then ':' else c) = l := by
  intro l
  induction l with
  | nil => intro _; simp
  | cons c cs ih =>
    intro h
    have hc : c ≠ '-' := fun hh => h (List.mem_cons.mpr (Or.inl hh.symm))
    have hcs : '-' ∉ cs := fun hm => h (List.mem_cons.mpr (Or.inr hm))
    by_cases hcc : c = ':'
    · subst hcc
      simp [ih hcs]
    · simp [hcc, hc, ih hcs]

lemma wellFormed_no_dash {d : String} (h : digestWellFormed d = true) :
    '-' ∉ d.data := by
  unfold digestWellFormed at h
  cases hs : splitFirstOn ':' d.data with
  | none => rw [hs] at h; simp at h
  | some p =>
    obtain ⟨a, hx⟩ := p
    rw [hs] at h
    simp only [Bool.and_eq_true, Bool.not_eq_true', List.all_eq_true] at h
    obtain ⟨⟨-, ha⟩, hh⟩ := h
    obtain ⟨heq, -⟩ := splitFirstOn_eq hs
    rw [heq]
    intro hmem
    rcases List.mem_append.mp hmem with hm | hm
    · have := ha _ hm
      simp [isAlgChar] at this
    · rcases List.mem_cons.mp hm with hm1 | hm2
      · exact absurd hm1 (by decide)
      · have := hh _ hm2
        simp [isHexChar] at this

lemma sign_shape (env : Env) (kp ir : String) (up : Bool) (pp : String)
    (ann : AnnMap) (upl : UploaderFn) :
    (∃ e, env.parseReference ir = .error e ∧
       sign env kp ir up pp ann upl = ([Event.evParse ir], .err e)) ∨
    (∃ r, env.parseReference ir = .ok r ∧
      ((∃ e, env.remoteGet r = .error e ∧
          sign env kp ir up pp ann upl =
            ([Event.evParse ir, Event.evGet r.repo], .err e)) ∨
       (∃ g, env.remoteGet r = .ok g ∧
         ((∃ e, payloadResult env pp g ann = .error e ∧
             sign env kp ir up pp ann upl =
               ([Event.evParse ir, Event.evGet r.repo] ++
                  payloadEvents pp g.digest, .err e)) ∨
          (∃ py, payloadResult env pp g ann = .ok py ∧
            ((∃ e, env.getPass false = .error e ∧
                sign env kp ir up pp ann upl =
                  ([Event.evParse ir, Event.evGet r.repo] ++
                     payloadEvents pp g.digest ++ [Event.evGetPass], .err e)) ∨
             (∃ ps, env.getPass false = .ok ps ∧
               ((∃ e, env.loadPrivateKey kp ps = .error e ∧
                   sign env kp ir up pp ann upl =
                     ([Event.evParse ir, Event.evGet r.repo] ++
                        payloadEvents pp g.digest ++
                        [Event.evGetPass, Event.evLoadKey kp], .err e)) ∨
                (∃ pk, env.loadPrivateKey kp ps = .ok pk ∧
                  ((pk.length ≠ 64 ∧
                      sign env kp ir up pp ann upl =
                        ([Event.evParse ir, Event.evGet r.repo] ++
                           payloadEvents pp g.digest ++
                           [Event.evGetPass, Event.evLoadKey kp],
                         .panicked "ed25519: bad private key length")) ∨
                   (pk.length = 64 ∧
                     ((up = false ∧
                         sign env kp ir up pp ann upl =
                           ([Event.evParse ir, Event.evGet r.repo] ++
                              payloadEvents pp g.digest ++
                              [Event.evGetPass, Event.evLoadKey kp,
                               Event.evSign pk py,
                               Event.evStdout
                                 (base64Encode (ed25519SignBytes pk py))],
                            .ok)) ∨
                      (up = true ∧
                        ((∃ u, upl (ed25519SignBytes pk py) py
                              ⟨r.repo, replaceAllChar g.digest ':' '-'⟩ = .ok u ∧
                            sign env kp ir up pp ann upl =
                              ([Event.evParse ir, Event.evGet r.repo] ++
                                 payloadEvents pp g.digest ++
                                 [Event.evGetPass, Event.evLoadKey kp,
                                  Event.evSign pk py,
                                  Event.evStderr ("Pushing signature to: " ++
                                    Tag.asString
                                      ⟨r.repo, replaceAllChar g.digest ':' '-'⟩),
                                  Event.evUpload (ed25519SignBytes pk py) py
                                    ⟨r.repo, replaceAllChar g.digest ':' '-'⟩],
                               .ok)) ∨
                         (∃ e, upl (ed25519SignBytes pk py) py
                              ⟨r.repo, replaceAllChar g.digest ':' '-'⟩ = .error e ∧
                            sign env kp ir up pp ann upl =
                              ([Event.evParse ir, Event.evGet r.repo] ++
                                 payloadEvents pp g.digest ++
                                 [Event.evGetPass, Event.evLoadKey kp,
                                  Event.evSign pk py,
                                  Event.evStderr ("Pushing signature to: " ++
                                    Tag.asString
                                      ⟨r.repo, replaceAllChar g.digest ':' '-'⟩),
                                  Event.evUpload (ed25519SignBytes pk py) py
                                    ⟨r.repo, replaceAllChar g.digest ':' '-'⟩],
                               .err e)))))))))))))))) := by
  cases hp : env.parseReference ir with
  | error e => exact Or.inl ⟨e, rfl, by simp [sign, hp]⟩
  | ok r =>
    refine Or.inr ⟨r, rfl, ?_⟩
    cases hg : env.remoteGet r with
    | error e => exact Or.inl ⟨e, rfl, by simp [sign, hp, hg]⟩
    | ok g =>
      refine Or.inr ⟨g, rfl, ?_⟩
      cases hpl : payloadResult env pp g ann with
      | error e => exact Or.inl ⟨e, rfl, by simp [sign, hp, hg, hpl]⟩
      | ok py =>
        refine Or.inr ⟨py, rfl, ?_⟩
        cases hps : env.getPass false with
        | error e => exact Or.inl ⟨e, rfl, by simp [sign, hp, hg, hpl, hps]⟩
        | ok ps =>
          refine Or.inr ⟨ps, rfl, ?_⟩
          cases hlk : env.loadPrivateKey kp ps with
          | error e =>
            exact Or.inl ⟨e, rfl, by simp [sign, hp, hg, hpl, hps, hlk]⟩
          | ok pk =>
            refine Or.inr ⟨pk, rfl, ?_⟩
            by_cases hlen : pk.length = 64
            · refine Or.inr ⟨hlen, ?_⟩
              cases up with
              | false =>
                exact Or.inl ⟨rfl,
                  by simp [sign, hp, hg, hpl, hps, hlk, ed25519Sign, hlen]⟩
              | true =>
                refine Or.inr ⟨rfl, ?_⟩
                cases hu : upl (ed25519SignBytes pk py) py
                    ⟨r.repo, replaceAllChar g.digest ':' '-'⟩ with
                | ok u =>
                  exact Or.inl ⟨u, rfl,
                    by simp [sign, hp, hg, hpl, hps, hlk, ed25519Sign, hlen, hu]⟩
                | error e =>
                  exact Or.inr ⟨e, rfl,
                    by simp [sign, hp, hg, hpl, hps, hlk, ed25519Sign, hlen, hu]⟩
            · exact Or.inl ⟨hlen,
                by simp [sign, hp, hg, hpl, hps, hlk, ed25519Sign, hlen]⟩

/-- C6: Address derivation is invertible: for every digest string in
`algorithm:hex` form, replacing the substituted separator `-` of the
derived address tag back with `:` reconstructs the digest exactly. -/
theorem c6_address_roundtrip (d : String) (h : digestWellFormed d = true) :
    replaceAllChar (replaceAllChar d ':' '-') '-' ':' = d := by
  have hd := wellFormed_no_dash h
  unfold replaceAllChar
  exact congrArg String.mk (map_colon_dash_roundtrip d.data hd)

/-- Witness for C6 at the digest sha256:abc123. -/
theorem c6_address_roundtrip_witness :
    digestWellFormed "sha256:abc123" = true ∧
    replaceAllChar (replaceAllChar "sha256:abc123" ':' '-') '-' ':' =
      "sha256:abc123" :=
  ⟨by decide, c6_address_roundtrip "sha256:abc123" (by decide)⟩

lemma lwwFold_init (k : String) (ps : List (String × String)) :
    ∀ init, lwwFold k init ps =
      match lwwFold k none ps with
      | some v => some v
      | none => init := by
  induction ps with
  | nil => intro init; simp [lwwFold]
  | cons p rest ih =>
    intro init
    simp only [lwwFold]
    rw [ih, ih (if p.1 = k then some p.2 else none)]
    cases hr : lwwFold k none rest with
    | some v => simp
    | none => by_cases hpk : p.1 = k <;> simp [hpk]

lemma annRun_bindings : ∀ (args : List String) (a : annotationsMap),
    (∀ t ∈ args, '=' ∈ t.data) →
    ((annRunSets a args).2 = none ∧
     ∀ k, ((annRunSets a args).1).bindings k =
       match lwwFold k none (args.filterMap parsePair) with
       | some v => some v
       | none => a.bindings k) := by
  intro args
  induction args with
  | nil =>
    intro a _
    exact ⟨rfl, fun k => by simp [annRunSets, lwwFold]⟩
  | cons t rest ih =>
    intro a h
    have ht : '=' ∈ t.data := h t (List.mem_cons_self t rest)
    obtain ⟨p, hp⟩ := splitFirstOn_of_mem ht
    obtain ⟨k0, v0⟩ := p
    have hset : annotationsMap.Set a t =
        (⟨some (annUpdate a.bindings ⟨k0⟩ ⟨v0⟩)⟩, none) := by
      simp [annotationsMap.Set, hp]
    have hrest : ∀ t2 ∈ rest, '=' ∈ t2.data :=
      fun t2 hm => h t2 (List.mem_cons.mpr (Or.inr hm))
    have run_eq : annRunSets a (t :: rest) =
        annRunSets ⟨some (annUpdate a.bindings ⟨k0⟩ ⟨v0⟩)⟩ rest := by
      simp [annRunSets, hset]
    obtain ⟨ih1, ih2⟩ := ih ⟨some (annUpdate a.bindings ⟨k0⟩ ⟨v0⟩)⟩ hrest
    rw [run_eq]
    refine ⟨ih1, fun k => ?_⟩
    rw [ih2 k]
    have hpp : parsePair t = some (⟨k0⟩, ⟨v0⟩) := by simp [parsePair, hp]
    simp only [List.filterMap_cons, hpp]
    simp only [lwwFold]
    rw [lwwFold_init k (rest.filterMap parsePair)
      (if (⟨k0⟩ : String) = k then some ⟨v0⟩ else none)]
    cases hr : lwwFold k none (rest.filterMap parsePair) with
    | some v => simp
    | none =>
      by_cases hk : k = (⟨k0⟩ : String)
      · subst hk
        simp [annotationsMap.bindings, annUpdate]
      · have hk2 : ¬((⟨k0⟩ : String) = k) := fun hh => hk hh.symm
        simp [annotationsMap.bindings, annUpdate, hk, hk2]

/-- C9: each annotation-flag Set call with an argument containing an
equals sign adds the key/value binding split at the first equals sign and
duplicate keys overwrite (the accumulated map binds each key to the value
of the last call naming it, matching the spec-side last-write-wins
reading); an argument without an equals sign makes Set fail with an error
and leaves the accumulated bindings unchanged. -/
theorem c9_annotations_last_write_wins
    (a : annotationsMap) (args : List String) (k1 v1 k2 : String)
    (b : annotationsMap) (s : String) (q : String)
    (hall : ∀ t ∈ args, '=' ∈ t.data)
    (h1 : specLastWriteWins args k1 = some v1)
    (h2 : specLastWriteWins args k2 = none)
    (hs : '=' ∉ s.data) :
    (annRunSets a args).2 = none ∧
    ((annRunSets a args).1).bindings k1 = some v1 ∧
    ((annRunSets a args).1).bindings k2 = a.bindings k2 ∧
    ((b.Set s).2 = some ("invalid flag: " ++ s ++ ", expected key=value")) ∧
    ((b.Set s).1).bindings q = b.bindings q := by
  obtain ⟨r1, r2⟩ := annRun_bindings args a hall
  have hnone := splitFirstOn_of_not_mem hs
  unfold specLastWriteWins at h1 h2
  refine ⟨r1, ?_, ?_, ?_, ?_⟩
  · rw [r2 k1, h1]
  · rw [r2 k2, h2]
  · simp [annotationsMap.Set, hnone]
  · simp [annotationsMap.Set, hnone, annotationsMap.bindings]

/-- Witness for C9: two writes to the key k (last value w wins), an
untouched key z, and a failing Set call on an argument with no equals
sign. -/
theorem c9_annotations_witness :
    (∀ t ∈ ["k=v", "k=w", "x=1"], '=' ∈ t.data) ∧
    specLastWriteWins ["k=v", "k=w", "x=1"] "k" = some "w" ∧
    specLastWriteWins ["k=v", "k=w", "x=1"] "z" = none ∧
    '=' ∉ "oops".data ∧
    ((annRunSets ⟨none⟩ ["k=v", "k=w", "x=1"]).2 = none ∧
     ((annRunSets ⟨none⟩ ["k=v", "k=w", "x=1"]).1).bindings "k" = some "w" ∧
     ((annRunSets ⟨none⟩ ["k=v", "k=w", "x=1"]).1).bindings "z" =
       annotationsMap.bindings ⟨none⟩ "z" ∧
     ((annotationsMap.Set ⟨none⟩ "oops").2 =
       some ("invalid flag: " ++ "oops" ++ ", expected key=value")) ∧
     ((annotationsMap.Set ⟨none⟩ "oops").1).bindings "k" =
       annotationsMap.bindings ⟨none⟩ "k") :=
  ⟨by decide, by decide, by decide, by decide,
   c9_annotations_last_write_wins ⟨none⟩ ["k=v", "k=w", "x=1"] "k" "w" "z"
     ⟨none⟩ "oops" "k" (by decide) (by decide) (by decide) (by decide)⟩

lemma upload_not_mem_payloadEvents {s p : Bytes} {t : Tag} {pp d : String} :
    Event.evUpload s p t ∉ payloadEvents pp d := by
  unfold payloadEvents
  split <;> simp

lemma sign_not_mem_payloadEvents {k py : Bytes} {pp d : String} :
    Event.evSign k py ∉ payloadEvents pp d := by
  unfold payloadEvents
  split <;> simp

lemma upload_tag (env : Env) (kp ir : String) (up : Bool) (pp : String)
    (ann : AnnMap) (upl : UploaderFn) (tr : List Event) (o : Outcome)
    (s p : Bytes) (t : Tag)
    (h : sign env kp ir up pp ann upl = (tr, o))
    (hm : Event.evUpload s p t ∈ tr) :
    ∃ r g, env.parseReference ir = .ok r ∧ env.remoteGet r = .ok g ∧
      t = ⟨r.repo, replaceAllChar g.digest ':' '-'⟩ := by
  rcases sign_shape env kp ir up pp ann upl with
      ⟨e, hp, hs⟩ |
      ⟨r, hp, ⟨e, hg, hs⟩ |
        ⟨g, hg, ⟨e, hpl, hs⟩ |
          ⟨py, hpl, ⟨e, hps, hs⟩ |
            ⟨ps, hps, ⟨e, hlk, hs⟩ |
              ⟨pk, hlk, ⟨hlen, hs⟩ |
                ⟨hlen, ⟨hup, hs⟩ |
                  ⟨hup, ⟨u, hu, hs⟩ | ⟨e, hu, hs⟩⟩⟩⟩⟩⟩⟩⟩ <;>
    rw [h] at hs <;> injection hs with htr ho <;> subst htr
  · exact absurd hm (by simp)
  · exact absurd hm (by simp)
  · exact absurd hm (by simp [upload_not_mem_payloadEvents])
  · exact absurd hm (by simp [upload_not_mem_payloadEvents])
  · exact absurd hm (by simp [upload_not_mem_payloadEvents])
  · exact absurd hm (by simp [upload_not_mem_payloadEvents])
  · exact absurd hm (by simp [upload_not_mem_payloadEvents])
  · simp [upload_not_mem_payloadEvents] at hm
    exact ⟨r, g, hp, hg, hm.2.2⟩
  · simp [upload_not_mem_payloadEvents] at hm
    exact ⟨r, g, hp, hg, hm.2.2⟩

/-- C1: the publication tag is a function of the resolved digest alone —
any two invocations whose resolved descriptors carry equal digest strings
publish under equal derived tags, whatever the image reference or any
other part of the invocation. -/
theorem c1_tag_depends_only_on_digest
    (env1 : Env) (kp1 ir1 : String) (up1 : Bool) (pp1 : String)
    (ann1 : AnnMap) (upl1 : UploaderFn) (tr1 : List Event) (o1 : Outcome)
    (s1 p1 : Bytes) (t1 : Tag)
    (env2 : Env) (kp2 ir2 : String) (up2 : Bool) (pp2 : String)
    (ann2 : AnnMap) (upl2 : UploaderFn) (tr2 : List Event) (o2 : Outcome)
    (s2 p2 : Bytes) (t2 : Tag)
    (h1 : sign env1 kp1 ir1 up1 pp1 ann1 upl1 = (tr1, o1))
    (hm1 : Event.evUpload s1 p1 t1 ∈ tr1)
    (h2 : sign env2 kp2 ir2 up2 pp2 ann2 upl2 = (tr2, o2))
    (hm2 : Event.evUpload s2 p2 t2 ∈ tr2)
    (hd : resolvedDigest env1 ir1 = resolvedDigest env2 ir2) :
    t1.tag = t2.tag := by
  obtain ⟨r1, g1, hp1, hg1, ht1⟩ :=
    upload_tag env1 kp1 ir1 up1 pp1 ann1 upl1 tr1 o1 s1 p1 t1 h1 hm1
  obtain ⟨r2, g2, hp2, hg2, ht2⟩ :=
    upload_tag env2 kp2 ir2 up2 pp2 ann2 upl2 tr2 o2 s2 p2 t2 h2 hm2
  have hd1 : resolvedDigest env1 ir1 = some g1.digest := by
    simp [resolvedDigest, hp1, hg1]
  have hd2 : resolvedDigest env2 ir2 = some g2.digest := by
    simp [resolvedDigest, hp2, hg2]
  rw [hd1, hd2] at hd
  injection hd with hdd
  rw [ht1, ht2]
  simp [hdd]

/-- Witness for C1: the same digest reached through two different image
references (hence two different repositories) yields the same derived tag
component. -/
theorem c1_tag_witness :
    Event.evUpload wSigBytes wPayloadBytes ⟨"repoA/img", "sha256-abc123"⟩ ∈
      (sign envOK "k" "repoA/img" true "" annEmpty uplOK).1 ∧
    Event.evUpload wSigBytes wPayloadBytes ⟨"repoB/img", "sha256-abc123"⟩ ∈
      (sign envOK "k" "repoB/img" true "" annEmpty uplOK).1 ∧
    resolvedDigest envOK "repoA/img" = resolvedDigest envOK "repoB/img" ∧
    (⟨"repoA/img", "sha256-abc123"⟩ : Tag).tag =
      (⟨"repoB/img", "sha256-abc123"⟩ : Tag).tag :=
  ⟨by decide, by decide, by decide,
   c1_tag_depends_only_on_digest
     envOK "k" "repoA/img" true "" annEmpty uplOK
     (sign envOK "k" "repoA/img" true "" annEmpty uplOK).1
     (sign envOK "k" "repoA/img" true "" annEmpty uplOK).2
     wSigBytes wPayloadBytes ⟨"repoA/img", "sha256-abc123"⟩
     envOK "k" "repoB/img" true "" annEmpty uplOK
     (sign envOK "k" "repoB/img" true "" annEmpty uplOK).1
     (sign envOK "k" "repoB/img" true "" annEmpty uplOK).2
     wSigBytes wPayloadBytes ⟨"repoB/img", "sha256-abc123"⟩
     rfl (by decide) rfl (by decide) (by decide)⟩

/-- C7: address derivation transforms exactly the separator `:` into `-`
(characterwise, every other character is kept), maps sha256:abc123 to the
tag sha256-abc123, and the published tag is scoped to the same repository
as the parsed reference. -/
theorem c7_separator_policy
    (env : Env) (kp ir : String) (up : Bool) (pp : String) (ann : AnnMap)
    (upl : UploaderFn) (tr : List Event) (o : Outcome)
    (s p : Bytes) (t : Tag) (d : String) (i : Nat)
    (h : sign env kp ir up pp ann upl = (tr, o))
    (hm : Event.evUpload s p t ∈ tr) :
    replaceAllChar "sha256:abc123" ':' '-' = "sha256-abc123" ∧
    (replaceAllChar d ':' '-').data.get? i =
      (d.data.get? i).map (fun c => if c = ':' then '-' else c) ∧
    (∃ r g, env.parseReference ir = .ok r ∧ env.remoteGet r = .ok g ∧
       t.repo = r.repo ∧ t.tag = replaceAllChar g.digest ':' '-') := by
  refine ⟨by decide, ?_, ?_⟩
  · simp [replaceAllChar]
  · obtain ⟨r, g, hp, hg, ht⟩ :=
      upload_tag env kp ir up pp ann upl tr o s p t h hm
    exact ⟨r, g, hp, hg, by rw [ht], by rw [ht]⟩

/-- Witness for C7 on a concrete upload, with the character transform
checked at index 6 of sha256:abc123 (the separator position). -/
theorem c7_separator_witness :
    Event.evUpload wSigBytes wPayloadBytes ⟨"repoA/img", "sha256-abc123"⟩ ∈
      (sign envOK "k" "repoA/img" true "" annEmpty uplOK).1 ∧
    (replaceAllChar "sha256:abc123" ':' '-' = "sha256-abc123" ∧
     (replaceAllChar "sha256:abc123" ':' '-').data.get? 6 =
       (("sha256:abc123" : String).data.get? 6).map
         (fun c => if c = ':' then '-' else c) ∧
     (∃ r g, envOK.parseReference "repoA/img" = .ok r ∧
        envOK.remoteGet r = .ok g ∧
        (⟨"repoA/img", "sha256-abc123"⟩ : Tag).repo = r.repo ∧
        (⟨"repoA/img", "sha256-abc123"⟩ : Tag).tag =
          replaceAllChar g.digest ':' '-')) :=
  ⟨by decide,
   c7_separator_policy envOK "k" "repoA/img" true "" annEmpty uplOK
     (sign envOK "k" "repoA/img" true "" annEmpty uplOK).1
     (sign envOK "k" "repoA/img" true "" annEmpty uplOK).2
     wSigBytes wPayloadBytes ⟨"repoA/img", "sha256-abc123"⟩
     "sha256:abc123" 6 rfl (by decide)⟩

lemma payloadEvents_any_false (pp d : String) :
    (payloadEvents pp d).any Event.isUploadEv = false ∧
    (payloadEvents pp d).any Event.isSignEv = false ∧
    (payloadEvents pp d).any Event.isStdoutEv = false := by
  unfold payloadEvents
  split <;>
    simp [Event.isUploadEv, Event.isSignEv, Event.isStdoutEv]

/-- C4: a successful invocation with upload set to false terminates right
after emitting the base64 signature on stdout: the trace ends with the
signing step followed by the stdout print of the base64-encoded signature,
and contains no uploader invocation, so nothing is published. -/
theorem c4_no_upload_displays_only
    (env : Env) (kp ir pp : String) (ann : AnnMap) (upl : UploaderFn)
    (tr : List Event) (o : Outcome)
    (h : sign env kp ir false pp ann upl = (tr, o))
    (hok : o = Outcome.ok) :
    hasUpload tr = false ∧
    ∃ pk py rest,
      tr = rest ++ [Event.evSign pk py,
                    Event.evStdout (base64Encode (ed25519SignBytes pk py))] := by
  subst hok
  rcases sign_shape env kp ir false pp ann upl with
      ⟨e, hp, hs⟩ |
      ⟨r, hp, ⟨e, hg, hs⟩ |
        ⟨g, hg, ⟨e, hpl, hs⟩ |
          ⟨py, hpl, ⟨e, hps, hs⟩ |
            ⟨ps, hps, ⟨e, hlk, hs⟩ |
              ⟨pk, hlk, ⟨hlen, hs⟩ |
                ⟨hlen, ⟨hup, hs⟩ |
                  ⟨hup, ⟨u, hu, hs⟩ | ⟨e, hu, hs⟩⟩⟩⟩⟩⟩⟩⟩ <;>
    rw [h] at hs <;> injection hs with htr ho
  · exact absurd ho (by simp)
  · exact absurd ho (by simp)
  · exact absurd ho (by simp)
  · exact absurd ho (by simp)
  · exact absurd ho (by simp)
  · exact absurd ho (by simp)
  · subst htr
    refine ⟨?_, pk, py,
      [Event.evParse ir, Event.evGet r.repo] ++ payloadEvents pp g.digest ++
        [Event.evGetPass, Event.evLoadKey kp], ?_⟩
    · simp [hasUpload, List.any_append, (payloadEvents_any_false pp g.digest).1,
        Event.isUploadEv]
    · simp
  · exact absurd hup (by decide)
  · exact absurd hup (by decide)

/-- Witness for C4: a concrete successful display-only invocation. -/
theorem c4_no_upload_witness :
    (sign envOK "k" "img" false "" annEmpty uplOK).2 = Outcome.ok ∧
    (hasUpload (sign envOK "k" "img" false "" annEmpty uplOK).1 = false ∧
     ∃ pk py rest, (sign envOK "k" "img" false "" annEmpty uplOK).1 =
       rest ++ [Event.evSign pk py,
                Event.evStdout (base64Encode (ed25519SignBytes pk py))]) :=
  ⟨by decide,
   c4_no_upload_displays_only envOK "k" "img" "" annEmpty uplOK
     (sign envOK "k" "img" false "" annEmpty uplOK).1
     (sign envOK "k" "img" false "" annEmpty uplOK).2
     rfl (by decide)⟩

/-- C5: when an override payload path is supplied, the payload builder is
never invoked, and whatever bytes get signed are exactly the raw bytes the
file read returned — verbatim, with no digest-dependent processing. -/
theorem c5_override_payload_verbatim
    (env : Env) (kp ir : String) (up : Bool) (pp : String) (ann : AnnMap)
    (upl : UploaderFn) (tr : List Event) (o : Outcome)
    (hpp : pp ≠ "")
    (h : sign env kp ir up pp ann upl = (tr, o)) :
    hasBuild tr = false ∧
    ∀ k2 p2, Event.evSign k2 p2 ∈ tr → env.readFile pp = Except.ok p2 := by
  rcases sign_shape env kp ir up pp ann upl with
      ⟨e, hp, hs⟩ |
      ⟨r, hp, ⟨e, hg, hs⟩ |
        ⟨g, hg, ⟨e, hpl, hs⟩ |
          ⟨py, hpl, ⟨e, hps, hs⟩ |
            ⟨ps, hps, ⟨e, hlk, hs⟩ |
              ⟨pk, hlk, ⟨hlen, hs⟩ |
                ⟨hlen, ⟨hup, hs⟩ |
                  ⟨hup, ⟨u, hu, hs⟩ | ⟨e, hu, hs⟩⟩⟩⟩⟩⟩⟩⟩ <;>
    rw [h] at hs <;> injection hs with htr ho <;> subst htr
  · exact ⟨by simp [hasBuild, Event.isBuildEv], by intro k2 p2 hm; simp at hm⟩
  · exact ⟨by simp [hasBuild, Event.isBuildEv], by intro k2 p2 hm; simp at hm⟩
  · refine ⟨?_, ?_⟩
    · simp [hasBuild, List.any_append, payloadEvents, hpp, Event.isBuildEv]
    · intro k2 p2 hm
      simp [payloadEvents, hpp] at hm
  · refine ⟨?_, ?_⟩
    · simp [hasBuild, List.any_append, payloadEvents, hpp, Event.isBuildEv]
    · intro k2 p2 hm
      simp [payloadEvents, hpp] at hm
  · refine ⟨?_, ?_⟩
    · simp [hasBuild, List.any_append, payloadEvents, hpp, Event.isBuildEv]
    · intro k2 p2 hm
      simp [payloadEvents, hpp] at hm
  · refine ⟨?_, ?_⟩
    · simp [hasBuild, List.any_append, payloadEvents, hpp, Event.isBuildEv]
    · intro k2 p2 hm
      simp [payloadEvents, hpp] at hm
  · refine ⟨?_, ?_⟩
    · simp [hasBuild, List.any_append, payloadEvents, hpp, Event.isBuildEv]
    · intro k2 p2 hm
      simp [payloadEvents, hpp] at hm
      obtain ⟨rfl, rfl⟩ := hm
      simp [payloadResult, hpp] at hpl
      exact hpl
  · refine ⟨?_, ?_⟩
    · simp [hasBuild, List.any_append, payloadEvents, hpp, Event.isBuildEv]
    · intro k2 p2 hm
      simp [payloadEvents, hpp] at hm
      obtain ⟨rfl, rfl⟩ := hm
      simp [payloadResult, hpp] at hpl
      exact hpl
  · refine ⟨?_, ?_⟩
    · simp [hasBuild, List.any_append, payloadEvents, hpp, Event.isBuildEv]
    · intro k2 p2 hm
      simp [payloadEvents, hpp] at hm
      obtain ⟨rfl, rfl⟩ := hm
      simp [payloadResult, hpp] at hpl
      exact hpl

/-- Witness for C5: a payload file whose bytes do not contain the digest
is signed verbatim. -/
theorem c5_override_witness :
    ("payload.json" : String) ≠ "" ∧
    (hasBuild (sign envOK "k" "img" true "payload.json" annEmpty uplOK).1 =
       false ∧
     ∀ k2 p2, Event.evSign k2 p2 ∈
         (sign envOK "k" "img" true "payload.json" annEmpty uplOK).1 →
       envOK.readFile "payload.json" = Except.ok p2) :=
  ⟨by decide,
   c5_override_payload_verbatim envOK "k" "img" true "payload.json" annEmpty
     uplOK (sign envOK "k" "img" true "payload.json" annEmpty uplOK).1
     (sign envOK "k" "img" true "payload.json" annEmpty uplOK).2
     (by decide) rfl⟩

/-- C10: reference resolution always happens first — every trace of `sign`
(whatever the payload override or upload flag) opens with the parse of the
image reference, immediately followed, whenever anything else happens at
all, by the remote descriptor fetch; a parse failure aborts with exactly
the parse event performed, and a fetch failure aborts with exactly the
parse and fetch events performed, so the payload read, the passphrase
prompt, key loading and signing are all skipped. -/
theorem c10_resolution_first
    (env : Env) (kp ir : String) (up : Bool) (pp : String) (ann : AnnMap)
    (upl : UploaderFn) (tr : List Event) (o : Outcome)
    (envA : Env) (kpA irA : String) (upA : Bool) (ppA : String)
    (annA : AnnMap) (uplA : UploaderFn) (trA : List Event) (oA : Outcome)
    (eA : String)
    (envB : Env) (kpB irB : String) (upB : Bool) (ppB : String)
    (annB : AnnMap) (uplB : UploaderFn) (trB : List Event) (oB : Outcome)
    (rB : Ref) (eB : String)
    (h : sign env kp ir up pp ann upl = (tr, o))
    (hA : sign envA kpA irA upA ppA annA uplA = (trA, oA))
    (hpA : envA.parseReference irA = .error eA)
    (hB : sign envB kpB irB upB ppB annB uplB = (trB, oB))
    (hpB : envB.parseReference irB = .ok rB)
    (hgB : envB.remoteGet rB = .error eB) :
    startsParseGet ir tr = true ∧
    (trA = [Event.evParse irA] ∧ oA = .err eA) ∧
    (trB = [Event.evParse irB, Event.evGet rB.repo] ∧ oB = .err eB) := by
  refine ⟨?_, ?_, ?_⟩
  · rcases sign_shape env kp ir up pp ann upl with
        ⟨e, hp, hs⟩ |
        ⟨r, hp, ⟨e, hg, hs⟩ |
          ⟨g, hg, ⟨e, hpl, hs⟩ |
            ⟨py, hpl, ⟨e, hps, hs⟩ |
              ⟨ps, hps, ⟨e, hlk, hs⟩ |
                ⟨pk, hlk, ⟨hlen, hs⟩ |
                  ⟨hlen, ⟨hup, hs⟩ |
                    ⟨hup, ⟨u, hu, hs⟩ | ⟨e, hu, hs⟩⟩⟩⟩⟩⟩⟩⟩ <;>
      rw [h] at hs <;> injection hs with htr ho <;> subst htr <;>
      simp [startsParseGet, Event.isGetEv]
  · simp only [sign, hpA] at hA
    injection hA.symm with h1 h2
    exact ⟨h1, h2⟩
  · simp only [sign, hpB, hgB] at hB
    injection hB.symm with h1 h2
    exact ⟨h1, h2⟩

/-- Witness for C10: a normal run, a run with a bad reference, and a run
with an unreachable registry. -/
theorem c10_resolution_witness :
    envFailParse.parseReference "img" = .error "could not parse reference" ∧
    envFailGet.parseReference "img" = .ok ⟨"img"⟩ ∧
    envFailGet.remoteGet ⟨"img"⟩ = .error "GET manifest: unauthorized" ∧
    (startsParseGet "img" (sign envOK "k" "img" true "" annEmpty uplOK).1 =
       true ∧
     ((sign envFailParse "k" "img" true "" annEmpty uplOK).1 =
        [Event.evParse "img"] ∧
      (sign envFailParse "k" "img" true "" annEmpty uplOK).2 =
        .err "could not parse reference") ∧
     ((sign envFailGet "k" "img" true "" annEmpty uplOK).1 =
        [Event.evParse "img", Event.evGet (Ref.repo ⟨"img"⟩)] ∧
      (sign envFailGet "k" "img" true "" annEmpty uplOK).2 =
        .err "GET manifest: unauthorized")) :=
  ⟨rfl, rfl, rfl,
   c10_resolution_first envOK "k" "img" true "" annEmpty uplOK
     (sign envOK "k" "img" true "" annEmpty uplOK).1
     (sign envOK "k" "img" true "" annEmpty uplOK).2
     envFailParse "k" "img" true "" annEmpty uplOK
     (sign envFailParse "k" "img" true "" annEmpty uplOK).1
     (sign envFailParse "k" "img" true "" annEmpty uplOK).2
     "could not parse reference"
     envFailGet "k" "img" true "" annEmpty uplOK
     (sign envFailGet "k" "img" true "" annEmpty uplOK).1
     (sign envFailGet "k" "img" true "" annEmpty uplOK).2
     ⟨"img"⟩ "GET manifest: unauthorized"
     rfl rfl rfl rfl rfl rfl⟩

/-- C8: the failure of any pre-upload step (reference parsing, descriptor
fetch, payload read or build, passphrase acquisition, key loading) aborts
the whole operation with exactly that step's error returned unchanged,
performs no signing, prints nothing to stdout and never invokes the
uploader (nothing is published); and when every earlier step succeeds and
the upload step itself fails, its error too is returned unchanged. -/
theorem c8_first_error_aborts
    (env : Env) (kp ir : String) (up : Bool) (pp : String) (ann : AnnMap)
    (upl : UploaderFn) (e : String) (tr : List Event) (o : Outcome)
    (env2 : Env) (kp2 ir2 pp2 : String) (ann2 : AnnMap) (e2 : String)
    (tr2 : List Event) (o2 : Outcome) (pk2 : Bytes)
    (hff : firstFailure env kp ir pp ann = some e)
    (h : sign env kp ir up pp ann upl = (tr, o))
    (hlk2 : loadedKey env2 kp2 ir2 pp2 ann2 = some pk2)
    (hlen2 : pk2.length = 64)
    (h2 : sign env2 kp2 ir2 true pp2 ann2 (fun _ _ _ => Except.error e2) =
      (tr2, o2)) :
    o = .err e ∧ hasSignEv tr = false ∧ hasStdout tr = false ∧
    hasUpload tr = false ∧ o2 = .err e2 := by
  have part2 : o2 = .err e2 := by
    rcases sign_shape env2 kp2 ir2 true pp2 ann2
        (fun _ _ _ => Except.error e2) with
        ⟨e0, hp, hs⟩ |
        ⟨r, hp, ⟨e0, hg, hs⟩ |
          ⟨g, hg, ⟨e0, hpl, hs⟩ |
            ⟨py, hpl, ⟨e0, hps, hs⟩ |
              ⟨ps, hps, ⟨e0, hlk, hs⟩ |
                ⟨pk, hlk, ⟨hlen, hs⟩ |
                  ⟨hlen, ⟨hup, hs⟩ |
                    ⟨hup, ⟨u, hu, hs⟩ | ⟨e0, hu, hs⟩⟩⟩⟩⟩⟩⟩⟩
    · simp [loadedKey, hp] at hlk2
    · simp [loadedKey, hp, hg] at hlk2
    · simp [loadedKey, hp, hg, hpl] at hlk2
    · simp [loadedKey, hp, hg, hpl, hps] at hlk2
    · simp [loadedKey, hp, hg, hpl, hps, hlk] at hlk2
    · simp [loadedKey, hp, hg, hpl, hps, hlk] at hlk2
      subst hlk2
      exact absurd hlen2 hlen
    · exact absurd hup (by decide)
    · simp at hu
    · simp only [Except.error.injEq] at hu
      rw [h2] at hs
      injection hs with htr ho
      rw [ho, hu]
  rcases sign_shape env kp ir up pp ann upl with
      ⟨e0, hp, hs⟩ |
      ⟨r, hp, ⟨e0, hg, hs⟩ |
        ⟨g, hg, ⟨e0, hpl, hs⟩ |
          ⟨py, hpl, ⟨e0, hps, hs⟩ |
            ⟨ps, hps, ⟨e0, hlk, hs⟩ |
              ⟨pk, hlk, ⟨hlen, hs⟩ |
                ⟨hlen, ⟨hup, hs⟩ |
                  ⟨hup, ⟨u, hu, hs⟩ | ⟨e0, hu, hs⟩⟩⟩⟩⟩⟩⟩⟩ <;>
    rw [h] at hs <;> injection hs with htr ho <;> subst htr
  · simp [firstFailure, hp] at hff
    subst hff
    exact ⟨ho, by simp [hasSignEv, Event.isSignEv],
      by simp [hasStdout, Event.isStdoutEv],
      by simp [hasUpload, Event.isUploadEv], part2⟩
  · simp [firstFailure, hp, hg] at hff
    subst hff
    exact ⟨ho, by simp [hasSignEv, Event.isSignEv],
      by simp [hasStdout, Event.isStdoutEv],
      by simp [hasUpload, Event.isUploadEv], part2⟩
  · simp [firstFailure, hp, hg, hpl] at hff
    subst hff
    refine ⟨ho, ?_, ?_, ?_, part2⟩
    · simp [hasSignEv, List.any_append, (payloadEvents_any_false pp g.digest).2.1,
        Event.isSignEv]
    · simp [hasStdout, List.any_append, (payloadEvents_any_false pp g.digest).2.2,
        Event.isStdoutEv]
    · simp [hasUpload, List.any_append, (payloadEvents_any_false pp g.digest).1,
        Event.isUploadEv]
  · simp [firstFailure, hp, hg, hpl, hps] at hff
    subst hff
    refine ⟨ho, ?_, ?_, ?_, part2⟩
    · simp [hasSignEv, List.any_append, (payloadEvents_any_false pp g.digest).2.1,
        Event.isSignEv]
    · simp [hasStdout, List.any_append, (payloadEvents_any_false pp g.digest).2.2,
        Event.isStdoutEv]
    · simp [hasUpload, List.any_append, (payloadEvents_any_false pp g.digest).1,
        Event.isUploadEv]
  · simp [firstFailure, hp, hg, hpl, hps, hlk] at hff
    subst hff
    refine ⟨ho, ?_, ?_, ?_, part2⟩
    · simp [hasSignEv, List.any_append, (payloadEvents_any_false pp g.digest).2.1,
        Event.isSignEv]
    · simp [hasStdout, List.any_append, (payloadEvents_any_false pp g.digest).2.2,
        Event.isStdoutEv]
    · simp [hasUpload, List.any_append, (payloadEvents_any_false pp g.digest).1,
        Event.isUploadEv]
  · simp [firstFailure, hp, hg, hpl, hps, hlk] at hff
  · simp [firstFailure, hp, hg, hpl, hps, hlk] at hff
  · simp [firstFailure, hp, hg, hpl, hps, hlk] at hff
  · simp [firstFailure, hp, hg, hpl, hps, hlk] at hff

/-- Witness for C8: a failing passphrase prompt aborts with that error and
no signing, output or upload, and a failing uploader surfaces its error. -/
theorem c8_first_error_witness :
    firstFailure envFailPass "k" "img" "" annEmpty =
      some "reading password: EOF" ∧
    loadedKey envOK "k" "img" "" annEmpty = some wKeyBytes ∧
    wKeyBytes.length = 64 ∧
    ((sign envFailPass "k" "img" true "" annEmpty uplOK).2 =
       .err "reading password: EOF" ∧
     hasSignEv (sign envFailPass "k" "img" true "" annEmpty uplOK).1 = false ∧
     hasStdout (sign envFailPass "k" "img" true "" annEmpty uplOK).1 = false ∧
     hasUpload (sign envFailPass "k" "img" true "" annEmpty uplOK).1 = false ∧
     (sign envOK "k" "img" true "" annEmpty
        (fun _ _ _ => Except.error "upload failed")).2 = .err "upload failed") :=
  ⟨by decide, by decide, by decide,
   c8_first_error_aborts envFailPass "k" "img" true "" annEmpty uplOK
     "reading password: EOF"
     (sign envFailPass "k" "img" true "" annEmpty uplOK).1
     (sign envFailPass "k" "img" true "" annEmpty uplOK).2
     envOK "k" "img" "" annEmpty "upload failed"
     (sign envOK "k" "img" true "" annEmpty
        (fun _ _ _ => Except.error "upload failed")).1
     (sign envOK "k" "img" true "" annEmpty
        (fun _ _ _ => Except.error "upload failed")).2
     wKeyBytes (by decide) rfl (by decide) (by decide) rfl⟩

/-- C2 counterexample: with a key loader that returns 3-byte key material
(an unsupported size), the sign operation does not fail with an error
returned to the caller — it crashes: the outcome is the ed25519 panic, not
an error result. -/
theorem c2_short_key_crash_counterexample :
    (sign envShortKey "k" "img" true "" annEmpty uplOK).2 =
      Outcome.panicked "ed25519: bad private key length" := by decide

/-- C2 amended: key material of unsupported size reaching the signing step
is indeed never silently truncated or padded (a signature is only ever
produced for a key of exactly the supported 64-byte size, used whole), but
the operation does not return an error for it: it crashes with the
ed25519 bad-key-length panic, performing no signing, no output and no
upload. -/
theorem c2_bad_key_size_panics
    (env : Env) (kp ir : String) (up : Bool) (pp : String) (ann : AnnMap)
    (upl : UploaderFn) (pk : Bytes) (tr : List Event) (o : Outcome)
    (hlk : loadedKey env kp ir pp ann = some pk)
    (hlen : pk.length ≠ 64)
    (h : sign env kp ir up pp ann upl = (tr, o)) :
    o = Outcome.panicked "ed25519: bad private key length" ∧
    hasSignEv tr = false ∧ hasStdout tr = false ∧ hasUpload tr = false ∧
    (∀ k2 m s, ed25519Sign k2 m = some s → k2.length = 64) := by
  have notrunc : ∀ k2 m s, ed25519Sign k2 m = some s → k2.length = 64 := by
    intro k2 m s hsg
    unfold ed25519Sign at hsg
    split at hsg
    · assumption
    · simp at hsg
  rcases sign_shape env kp ir up pp ann upl with
      ⟨e0, hp, hs⟩ |
      ⟨r, hp, ⟨e0, hg, hs⟩ |
        ⟨g, hg, ⟨e0, hpl, hs⟩ |
          ⟨py, hpl, ⟨e0, hps, hs⟩ |
            ⟨ps, hps, ⟨e0, hlk2, hs⟩ |
              ⟨pk0, hlk2, ⟨hlen0, hs⟩ |
                ⟨hlen0, ⟨hup, hs⟩ |
                  ⟨hup, ⟨u, hu, hs⟩ | ⟨e0, hu, hs⟩⟩⟩⟩⟩⟩⟩⟩
  · simp [loadedKey, hp] at hlk
  · simp [loadedKey, hp, hg] at hlk
  · simp [loadedKey, hp, hg, hpl] at hlk
  · simp [loadedKey, hp, hg, hpl, hps] at hlk
  · simp [loadedKey, hp, hg, hpl, hps, hlk2] at hlk
  · simp [loadedKey, hp, hg, hpl, hps, hlk2] at hlk
    subst hlk
    rw [h] at hs
    injection hs with htr ho
    subst htr
    refine ⟨ho, ?_, ?_, ?_, notrunc⟩
    · simp [hasSignEv, List.any_append, (payloadEvents_any_false pp g.digest).2.1,
        Event.isSignEv]
    · simp [hasStdout, List.any_append, (payloadEvents_any_false pp g.digest).2.2,
        Event.isStdoutEv]
    · simp [hasUpload, List.any_append, (payloadEvents_any_false pp g.digest).1,
        Event.isUploadEv]
  · simp [loadedKey, hp, hg, hpl, hps, hlk2] at hlk
    subst hlk
    exact absurd hlen0 hlen
  · simp [loadedKey, hp, hg, hpl, hps, hlk2] at hlk
    subst hlk
    exact absurd hlen0 hlen
  · simp [loadedKey, hp, hg, hpl, hps, hlk2] at hlk
    subst hlk
    exact absurd hlen0 hlen

/-- Witness for the amended C2 at the 3-byte key. -/
theorem c2_bad_key_size_witness :
    loadedKey envShortKey "k" "img" "" annEmpty = some [1, 2, 3] ∧
    ([1, 2, 3] : Bytes).length ≠ 64 ∧
    ((sign envShortKey "k" "img" true "" annEmpty uplOK).2 =
       Outcome.panicked "ed25519: bad private key length" ∧
     hasSignEv (sign envShortKey "k" "img" true "" annEmpty uplOK).1 = false ∧
     hasStdout (sign envShortKey "k" "img" true "" annEmpty uplOK).1 = false ∧
     hasUpload (sign envShortKey "k" "img" true "" annEmpty uplOK).1 = false ∧
     (∀ k2 m s, ed25519Sign k2 m = some s → k2.length = 64)) :=
  ⟨by decide, by decide,
   c2_bad_key_size_panics envShortKey "k" "img" true "" annEmpty uplOK
     [1, 2, 3]
     (sign envShortKey "k" "img" true "" annEmpty uplOK).1
     (sign envShortKey "k" "img" true "" annEmpty uplOK).2
     (by decide) (by decide) rfl⟩

/-- C3: when the format selector names an unregistered uploader variant
(with the key path present and exactly one reference argument, so the
usage checks pass), the command fails at once with the unsupported-format
error and the empty trace: no reference resolution, payload construction,
passphrase acquisition, key loading or signing is performed. -/
theorem c3_unregistered_format_fails_early
    (env : Env) (key : String) (up : Bool) (pp : String)
    (a : annotationsMap) (fmt imageRef : String)
    (hk : key ≠ "")
    (hf : env.uploaders fmt = none) :
    SignExec env key up pp a fmt [imageRef] =
      ([], .err ("unsupported format flag: " ++ fmt)) := by
  simp [SignExec, hk, hf]

/-- Witness for C3 with the format selector "nonexistent". -/
theorem c3_unregistered_format_witness :
    ("mykey" : String) ≠ "" ∧
    envOK.uploaders "nonexistent" = none ∧
    SignExec envOK "mykey" true "" ⟨none⟩ "nonexistent" ["img"] =
      ([], .err ("unsupported format flag: " ++ "nonexistent")) :=
  ⟨by decide, by rfl,
   c3_unregistered_format_fails_early envOK "mykey" true "" ⟨none⟩
     "nonexistent" "img" (by decide) (by rfl)⟩
